import Mathlib

/-!
# PeerTube2Nostr core pipeline: a shallow embedding with verified properties

This file embeds the ingestion, deduplication, variant-selection,
rate-limiting and publish-orchestration core of the PeerTube2Nostr
repository (the `webapp/backend/core` module and, where a claim also
cites it, the legacy `peertube_nostr.py` CLI module) as executable Lean
definitions, and proves or refutes the specified properties.

Conventions of the embedding:
* SQLite tables become Lean lists of records; SQL `NULL` becomes `Option`.
* Machine integers are `Int` (timestamps) or `Nat` (ids, counts); Python
  integers are unbounded so no wrap-around modelling is needed.
* Python truthiness of optional strings and integers is modelled by
  explicit `pyTruthy` helpers (`None`, `""` and `0` are falsy).
* `urllib.parse.urlparse` / `urlunparse` (CPython 3.11 line) are modelled
  character-list by character-list: scheme split, netloc split with the
  unbalanced-bracket `ValueError`, fragment and query splits, the
  `;`-params split of `urlparse`, and the `_hostinfo` host/port logic.
* Functions that raise `ValueError` return `Except String`.
-/

/-! ## Python string primitives -/

/-- Whitespace recognised by Python `str.strip()` (ASCII subset). -/
def pySpace (c : Char) : Bool :=
  c = ' ' || c = '\t' || c = '\n' || c = '\r' || c = '\x0b' || c = '\x0c'

/-- `str.strip()` on a character list. -/
def pyStripChars (l : List Char) : List Char :=
  ((l.dropWhile pySpace).reverse.dropWhile pySpace).reverse

/-- `str.strip()` on a string. -/
def pyStrip (s : String) : String :=
  String.mk (pyStripChars s.data)

/-- Truthiness of a Python optional string: `None` and `""` are falsy. -/
def pyTruthy : Option String → Bool
  | none => false
  | some s => !s.isEmpty

/-- Truthiness of a Python optional integer: `None` and `0` are falsy. -/
def pyTruthyInt : Option Int → Bool
  | none => false
  | some n => n ≠ 0

/-- Python `a or b` on optional strings (first truthy operand, else `b`). -/
def pyOr (a b : Option String) : Option String :=
  if pyTruthy a then a else b

/-- Python `(a or "")` for an optional string. -/
def pyOrEmpty (a : Option String) : String :=
  if pyTruthy a then a.getD "" else ""

/-- Python `a or d` where `d` is a plain string default. -/
def pyOrStr (a : Option String) (d : String) : String :=
  if pyTruthy a then a.getD "" else d

/-- Substring test, Python `needle in hay`. -/
def strContains : List Char → List Char → Bool
  | [], needle => needle.isEmpty
  | c :: t, needle => List.isPrefixOf needle (c :: t) || strContains t needle

/-- Python `str.lower()` (ASCII). -/
def pyLower (l : List Char) : List Char :=
  l.map Char.toLower

/-! ## `urllib.parse` model (CPython 3.11 line)

`urlsplit` removes tab, CR and LF, detects a scheme, slices the netloc
after `//` up to the first of `/ ? #` (raising `ValueError` on a netloc
with unbalanced square brackets), then splits off the fragment after `#`
and the query after `?`.  `urlparse` additionally moves a `;suffix` of
the last path segment into the (discarded) params component.  The
`hostname` accessor takes the part of the netloc after the last `@`,
handles a bracketed host, lower-cases, and the `port` accessor requires
decimal digits in `0..65535`. -/

/-- Characters allowed in a URL scheme after the first letter. -/
def isSchemeChar (c : Char) : Bool :=
  c.isAlpha || c.isDigit || c = '+' || c = '-' || c = '.'

/-- The bytes CPython `urlsplit` silently removes from its input. -/
def removeUnsafeBytes (l : List Char) : List Char :=
  l.filter (fun c => !(c = '\t' || c = '\r' || c = '\n'))

/-- Index of the first occurrence of `c`, if any. -/
def firstIdxOf (l : List Char) (c : Char) : Option Nat :=
  l.findIdx? (fun x => x = c)

/-- Index of the last occurrence of `c`, if any. -/
def lastIdxOf (l : List Char) (c : Char) : Option Nat :=
  match (l.reverse.findIdx? (fun x => x = c)) with
  | none => none
  | some j => some (l.length - 1 - j)

/-- First index of `c` at position `start` or later, if any
(Python `str.find(c, start)`). -/
def findFrom (l : List Char) (c : Char) (start : Nat) : Option Nat :=
  match (l.drop start).findIdx? (fun x => x = c) with
  | none => none
  | some j => some (start + j)

/-- The scheme-detection step of `urlsplit`: returns
`(scheme, remainder)`; the scheme is `[]` when none is recognised. -/
def splitScheme (l : List Char) : List Char × List Char :=
  match firstIdxOf l ':' with
  | none => ([], l)
  | some i =>
    if 0 < i && (l.headD ' ').isAlpha && (l.take i).all isSchemeChar then
      (pyLower (l.take i), l.drop (i + 1))
    else
      ([], l)

/-- The netloc-slicing step of `urlsplit` (`_splitnetloc`): when the
remainder starts with `//`, the netloc runs up to the first `/`, `?`
or `#`. -/
def splitNetloc (l : List Char) : List Char × List Char :=
  match l with
  | '/' :: '/' :: rest =>
    (rest.takeWhile (fun c => !(c = '/' || c = '?' || c = '#')),
     rest.dropWhile (fun c => !(c = '/' || c = '?' || c = '#')))
  | _ => ([], l)

/-- Split at the first occurrence of `c`: `(before, after)`; `after` is
`[]` when `c` does not occur (Python `str.split(c, 1)` with the marker
dropped). -/
def splitAtChar (l : List Char) (c : Char) : List Char × List Char :=
  match firstIdxOf l c with
  | none => (l, [])
  | some i => (l.take i, l.drop (i + 1))

/-- The result components of `urlparse` (params split off the path). -/
structure UrlParts where
  scheme : List Char
  netloc : List Char
  path : List Char
  params : List Char
  query : List Char
  fragment : List Char
deriving Repr, DecidableEq

/-- `_splitparams`: when the path contains `;`, move the part of the
last segment after the first such `;` into params. -/
def splitParams (path : List Char) : List Char × List Char :=
  if strContains path [';'] then
    if strContains path ['/'] then
      match lastIdxOf path '/' with
      | none => (path, [])
      | some s =>
        match findFrom path ';' s with
        | none => (path, [])
        | some i => (path.take i, path.drop (i + 1))
    else
      match firstIdxOf path ';' with
      | none => (path, [])
      | some i => (path.take i, path.drop (i + 1))
  else
    (path, [])

/-- `urllib.parse.urlparse` on a character list.  The `ValueError` for a
netloc with unbalanced square brackets becomes `Except.error`. -/
def pyUrlparse (l0 : List Char) : Except String UrlParts := do
  let l := removeUnsafeBytes l0
  let (scheme, rest) := splitScheme l
  let (netloc, rest) := splitNetloc rest
  if strContains netloc ['['] != strContains netloc [']'] then
    throw "Invalid IPv6 URL"
  let (rest, fragment) := splitAtChar rest '#'
  let (rest, query) := splitAtChar rest '?'
  let (path, params) := splitParams rest
  pure ⟨scheme, netloc, path, params, query, fragment⟩

/-- `_hostinfo`: the raw (not yet lower-cased) host and the raw port
text of a netloc. -/
def hostinfo (netloc : List Char) : List Char × List Char :=
  let hostpart :=
    match lastIdxOf netloc '@' with
    | none => netloc
    | some i => netloc.drop (i + 1)
  match firstIdxOf hostpart '[' with
  | some i =>
    let bracketed := hostpart.drop (i + 1)
    let (host, rest) := splitAtChar bracketed ']'
    (host, (splitAtChar rest ':').2)
  | none => splitAtChar hostpart ':'

/-- The `hostname` accessor: lower-cased host, `none` when empty. -/
def pyHostname (netloc : List Char) : Option (List Char) :=
  let h := (hostinfo netloc).1
  if h.isEmpty then none else some (pyLower h)

/-- Decimal digits to a number. -/
def digitsToNat (l : List Char) : Nat :=
  l.foldl (fun a c => a * 10 + (c.toNat - '0'.toNat)) 0

/-- The `port` accessor: `none` when absent, `ValueError` for a
non-decimal or out-of-range port. -/
def pyPort (netloc : List Char) : Except String (Option Nat) :=
  let p := (hostinfo netloc).2
  if p.isEmpty then pure none
  else if p.all Char.isDigit then
    let n := digitsToNat p
    if n ≤ 65535 then pure (some n) else throw "Port out of range 0-65535"
  else throw "Port could not be cast to integer value"

/-- Digits of a number, for rendering a kept port. -/
def natToDigits (n : Nat) : List Char :=
  (Nat.toDigits 10 n)

/-- `urlunparse((scheme, netloc, path, "", query, ""))` for a non-empty
netloc, as used by the normaliser. -/
def pyUrlunparse (scheme netloc path query : List Char) : List Char :=
  let url := ['/', '/'] ++ netloc ++ path
  let url := scheme ++ [':'] ++ url
  if query.isEmpty then url else url ++ ['?'] ++ query

/-- `UrlNormaliser._normalise_url` (webapp `core/utils.py`): strip, parse,
require scheme and host, lower-case scheme and host, drop default ports,
default the path to `/` and strip its trailing slashes when not root,
drop params and fragment, keep the query. -/
def normaliseUrl (url : String) : Except String String := do
  let raw := pyStripChars url.data
  if raw.isEmpty then throw "URL is empty"
  let p ← pyUrlparse raw
  if p.scheme.isEmpty || p.netloc.isEmpty then
    throw ("Invalid URL: " ++ String.mk raw)
  let scheme := pyLower p.scheme
  let host :=
    match pyHostname p.netloc with
    | none => []
    | some h => h
  if host.isEmpty then throw ("Invalid URL host: " ++ String.mk raw)
  let port0 ← pyPort p.netloc
  let port :=
    if (scheme = "https".data && port0 = some 443)
        || (scheme = "http".data && port0 = some 80)
        || (scheme = "wss".data && port0 = some 443)
        || (scheme = "ws".data && port0 = some 80) then
      none
    else port0
  let netloc :=
    match port with
    | none => host
    | some n => host ++ [':'] ++ natToDigits n
  let path := if p.path.isEmpty then ['/'] else p.path
  let path :=
    if path ≠ ['/'] && path.getLastD ' ' = '/' then
      (path.reverse.dropWhile (fun c => c = '/')).reverse
    else path
  pure (String.mk (pyUrlunparse scheme netloc path p.query))

/-- `UrlNormaliser.normalise_http_url`: normalise, reparse, and require
an `http` or `https` scheme. -/
def normaliseHttpUrl (url : String) : Except String String := do
  let u ← normaliseUrl url
  let p ← pyUrlparse u.data
  if p.scheme = "http".data || p.scheme = "https".data then pure u
  else throw "URL must be http or https"

/-- `UrlNormaliser.normalise_relay_url`: normalise, reparse, and require
a `ws` or `wss` scheme. -/
def normaliseRelayUrl (url : String) : Except String String := do
  let u ← normaliseUrl url
  let p ← pyUrlparse u.data
  if p.scheme = "ws".data || p.scheme = "wss".data then pure u
  else throw "Relay URL must be ws or wss"

/-- `UrlNormaliser.normalise_watch_url`: a lighter normaliser used only
for the stored `watch_url_norm` column; `urlparse` is applied to the
stripped input and scheme, netloc, path and query are reassembled.  The
(unreachable in practice) bracket `ValueError` is mapped to `""`. -/
def normaliseWatchUrl (url : String) : String :=
  match pyUrlparse (pyStripChars url.data) with
  | .error _ => ""
  | .ok p =>
    String.mk (p.scheme ++ "://".data ++ p.netloc ++ p.path
      ++ (if p.query.isEmpty then [] else ['?'] ++ p.query))

/-! ## Persistent store model (`webapp/backend/core/database.py`)

The SQLite tables become lists of records; `NULL` becomes `none`.  Only
the two tables the claims touch (`videos`, `sources`) are modelled; the
rate-limit settings are carried as explicit numeric parameters where a
component reads them. -/

/-- One row of the `videos` table (all columns of `Store.init_schema`). -/
structure VideoRow where
  id : Nat
  source_id : Nat
  entry_key : String
  watch_url : String
  watch_url_norm : String
  peertube_base : Option String
  peertube_video_id : Option String
  peertube_instance : Option String
  channel_name : Option String
  channel_url : Option String
  account_name : Option String
  account_url : Option String
  title : Option String
  summary : Option String
  hls_url : Option String
  direct_url : Option String
  published_ts : Option Int
  thumbnail_url : Option String
  status : String
  nostr_event_id : Option String
  error : Option String
  first_seen_ts : Int
  last_attempt_ts : Option Int
  posted_ts : Option Int
deriving Repr, DecidableEq

/-- One row of the `sources` table. -/
structure SourceRow where
  id : Nat
  enabled : Bool
  created_ts : Int
  api_base : Option String
  api_base_norm : Option String
  api_channel : Option String
  api_channel_url : Option String
  api_channel_url_norm : Option String
  rss_url : Option String
  rss_url_norm : Option String
  last_polled_ts : Option Int
  last_error : Option String
  lookback_days : Option Int
deriving Repr, DecidableEq

/-- The store state: the two tables the claims are about. -/
structure Store where
  sources : List SourceRow
  videos : List VideoRow
deriving Repr, DecidableEq

/-- `IngestedItem` (`webapp/backend/core/models.py`). -/
structure IngestedItem where
  source_id : Nat
  entry_key : String
  watch_url : String
  title : String
  summary : String
  peertube_base : Option String
  peertube_video_id : Option String
  hls_url : Option String
  mp4_url : Option String
  peertube_instance : Option String
  channel_name : Option String
  channel_url : Option String
  account_name : Option String
  account_url : Option String
  published_ts : Option Int
  thumbnail_url : Option String
deriving Repr, DecidableEq

/-- The next AUTOINCREMENT id for the `videos` table. -/
def genVideoId (t : Store) : Nat :=
  (t.videos.map (fun r => r.id)).foldl max 0 + 1

/-- The fresh row written by `Store.insert_pending` at time `ts`. -/
def rowOfItem (t : Store) (item : IngestedItem) (ts : Int) : VideoRow :=
  { id := genVideoId t
    source_id := item.source_id
    entry_key := item.entry_key
    watch_url := item.watch_url
    watch_url_norm := normaliseWatchUrl item.watch_url
    peertube_base := item.peertube_base
    peertube_video_id := item.peertube_video_id
    peertube_instance := item.peertube_instance
    channel_name := item.channel_name
    channel_url := item.channel_url
    account_name := item.account_name
    account_url := item.account_url
    title := some item.title
    summary := some item.summary
    hls_url := item.hls_url
    direct_url := item.mp4_url
    published_ts := item.published_ts
    thumbnail_url := item.thumbnail_url
    status := "pending"
    nostr_event_id := none
    error := none
    first_seen_ts := ts
    last_attempt_ts := none
    posted_ts := none }

/-- Is there already a row for this `(source_id, entry_key)` pair?
(`Store.video_exists`). -/
def videoExists (t : Store) (sid : Nat) (key : String) : Bool :=
  t.videos.any (fun r => r.source_id = sid && r.entry_key = key)

/-- `Store.insert_pending`: `INSERT OR IGNORE` keyed on the
`UNIQUE(source_id, entry_key)` index — a no-op when a row with the same
pair exists, an append of a fresh pending row otherwise. -/
def insertPending (t : Store) (item : IngestedItem) (ts : Int) : Store :=
  if videoExists t item.source_id item.entry_key then t
  else { t with videos := t.videos ++ [rowOfItem t item ts] }

/-- `Store.update_published_ts_if_null`. -/
def updatePublishedTsIfNull (t : Store) (sid : Nat) (key : String)
    (pts : Int) : Store :=
  { t with
    videos := t.videos.map (fun r =>
      if r.source_id = sid && r.entry_key = key && r.published_ts = none then
        { r with published_ts := some pts }
      else r) }

/-- `Store.mark_posted` at time `ts`: `UPDATE videos SET status='posted',
nostr_event_id=?, posted_ts=?, last_attempt_ts=?, error=NULL WHERE id=?`. -/
def markPosted (t : Store) (video_id : Nat) (event_id : String)
    (ts : Int) : Store :=
  { t with
    videos := t.videos.map (fun r =>
      if r.id = video_id then
        { r with
          status := "posted"
          nostr_event_id := some event_id
          posted_ts := some ts
          last_attempt_ts := some ts
          error := none }
      else r) }

/-- `Store.mark_failed` at time `ts` (error text truncated to 2000). -/
def markFailed (t : Store) (video_id : Nat) (err : String) (ts : Int) : Store :=
  { t with
    videos := t.videos.map (fun r =>
      if r.id = video_id then
        { r with
          status := "failed"
          error := some (String.mk (err.data.take 2000))
          last_attempt_ts := some ts }
      else r) }

/-- `Store.mark_source_polled` at time `ts`. -/
def markSourcePolled (t : Store) (sid : Nat) (err : Option String)
    (ts : Int) : Store :=
  { t with
    sources := t.sources.map (fun s =>
      if s.id = sid then { s with last_polled_ts := some ts, last_error := err }
      else s) }

/-- `SELECT MAX(posted_ts) FROM videos WHERE status='posted'`
(SQL `MAX` ignores `NULL`s and is `NULL` on an empty set). -/
def lastPostedTs (t : Store) : Option Int :=
  match t.videos.filterMap
      (fun v => if v.status = "posted" then v.posted_ts else none) with
  | [] => none
  | h :: rest => some (rest.foldl max h)

/-- Does the row count for the trailing-window queries: posted status and
`posted_ts >= since` (`NULL posted_ts` never qualifies, as in SQL). -/
def postedInWindow (v : VideoRow) (since : Int) : Bool :=
  v.status = "posted" &&
    match v.posted_ts with
    | some p => since ≤ p
    | none => false

/-- `Store.count_posted_since`. -/
def countPostedSince (t : Store) (since : Int) : Nat :=
  (t.videos.filter (fun v => postedInWindow v since)).length

/-- `Store.oldest_posted_since` (`SELECT MIN(posted_ts) ...`). -/
def oldestPostedSince (t : Store) (since : Int) : Option Int :=
  match t.videos.filterMap
      (fun v => if postedInWindow v since then v.posted_ts else none) with
  | [] => none
  | h :: rest => some (rest.foldl min h)

/-- `Store.count_posted_since_for_source`. -/
def countPostedSinceFor (t : Store) (sid : Nat) (since : Int) : Nat :=
  (t.videos.filter
    (fun v => v.source_id = sid && postedInWindow v since)).length

/-- `Store.oldest_posted_since_for_source`. -/
def oldestPostedSinceFor (t : Store) (sid : Nat) (since : Int) : Option Int :=
  match t.videos.filterMap
      (fun v => if v.source_id = sid && postedInWindow v since
                then v.posted_ts else none) with
  | [] => none
  | h :: rest => some (rest.foldl min h)

/-- Is the video's source present and enabled (the `JOIN sources s ON
s.id = v.source_id ... AND s.enabled=1` condition)? -/
def sourceEnabled (t : Store) (sid : Nat) : Bool :=
  t.sources.any (fun s => s.id = sid && s.enabled)

/-- The pending rows of enabled sources (the WHERE/JOIN clause of
`Store.next_pending_eligible`). -/
def pendingJoin (t : Store) : List VideoRow :=
  t.videos.filter (fun v => v.status = "pending" && sourceEnabled t v.source_id)

/-- Sort rank of the `published_ts IS NULL` key (ASC: known times first). -/
def pubNullRank (v : VideoRow) : Nat :=
  if v.published_ts = none then 1 else 0

/-- The `published_ts` sort value (`NULL`s are mutually tied). -/
def pubVal (v : VideoRow) : Int :=
  v.published_ts.getD 0

/-- The `ORDER BY (published_ts IS NULL) ASC, published_ts ASC,
first_seen_ts ASC` ordering of `Store.next_pending_eligible`. -/
def pendingOrder (a b : VideoRow) : Prop :=
  pubNullRank a < pubNullRank b ∨
    (pubNullRank a = pubNullRank b ∧
      (pubVal a < pubVal b ∨
        (pubVal a = pubVal b ∧ a.first_seen_ts ≤ b.first_seen_ts)))

instance : DecidableRel pendingOrder := fun a b => by
  unfold pendingOrder; infer_instance

instance : IsTotal VideoRow pendingOrder :=
  ⟨fun a b => by unfold pendingOrder; omega⟩

instance : IsTrans VideoRow pendingOrder :=
  ⟨fun a b c hab hbc => by
    unfold pendingOrder at hab hbc ⊢; omega⟩

/-- The scanned candidate list: pending rows of enabled sources in the
SQL sort order. -/
def pendingSorted (t : Store) : List VideoRow :=
  (pendingJoin t).insertionSort pendingOrder

/-- `Store.next_pending_eligible(now_ts, max_per_day_per_source)`: fetch
at most `LIMIT 200` ordered candidates, then return the first whose
source has fewer than `max_per_day_per_source` rows posted in the
trailing 86400 seconds (the query result projects a subset of the
columns; the model returns the whole row). -/
def nextPendingEligible (t : Store) (now_ts : Int) (maxPerDay : Int) :
    Option VideoRow :=
  ((pendingSorted t).take 200).find?
    (fun v => decide ((countPostedSinceFor t v.source_id (now_ts - 86400) : Int)
      < maxPerDay))

/-! ## RateLimiter (`webapp/backend/core/runner.py`)

The constructor caches `now_ts` and the three limits read from the
settings table; the model carries them as fields. -/

structure RateLimiter where
  store : Store
  now_ts : Int
  min_interval : Int
  max_per_hour : Int
  max_per_day_per_source : Int
deriving Repr

/-- `RateLimiter.wait_interval`: `max(0, min_interval - (now - last))
if last else 0` where `last = store.last_posted_ts() or 0`. -/
def RateLimiter.wait_interval (rl : RateLimiter) : Int :=
  let last : Int := (lastPostedTs rl.store).getD 0
  if last ≠ 0 then max 0 (rl.min_interval - (rl.now_ts - last)) else 0

/-- `RateLimiter.wait_hourly`. -/
def RateLimiter.wait_hourly (rl : RateLimiter) : Int :=
  if (countPostedSince rl.store (rl.now_ts - 3600) : Int) ≥ rl.max_per_hour then
    match oldestPostedSince rl.store (rl.now_ts - 3600) with
    | some o => if o ≠ 0 then max 0 (3600 - (rl.now_ts - o)) else 0
    | none => 0
  else 0

/-- `RateLimiter.wait_daily_for_source`. -/
def RateLimiter.wait_daily_for_source (rl : RateLimiter)
    (source_id : Option Nat) : Int :=
  match source_id with
  | none => 0
  | some sid =>
    if rl.max_per_day_per_source ≤ 0 then 0
    else if (countPostedSinceFor rl.store sid (rl.now_ts - 86400) : Int)
        ≥ rl.max_per_day_per_source then
      match oldestPostedSinceFor rl.store sid (rl.now_ts - 86400) with
      | some o => if o ≠ 0 then max 0 (86400 - (rl.now_ts - o)) else 0
      | none => 0
    else 0

/-- `RateLimiter.next_wait`: the maximum of the three waits. -/
def RateLimiter.next_wait (rl : RateLimiter) (source_id : Option Nat) : Int :=
  max rl.wait_interval (max rl.wait_hourly (rl.wait_daily_for_source source_id))

/-! ## Nostr message shape (`webapp/backend/core/nostr.py`)

`NostrPublisher._build_content` / `_build_tags` consume the row returned
by `Store.next_pending_eligible`; the model consumes the `VideoRow`
(the query projects exactly the fields used here). -/

/-- `NostrPublisher._build_content`: the text body, accumulated line by
line exactly as the Python code appends them, then joined with newlines
and stripped. -/
def buildContent (p : VideoRow) : String :=
  let title := pyStrip (pyOrEmpty p.title)
  let summary := pyStrip (pyOrEmpty p.summary)
  let watch := pyStrip p.watch_url
  let mp4 := p.direct_url
  let hls := p.hls_url
  let channel_name := pyOr p.channel_name p.account_name
  let channel_url := pyOr p.channel_url p.account_url
  let lines : List String := []
  let lines := if !title.isEmpty then lines ++ [title] else lines
  let lines := if pyTruthy channel_name then
      lines ++ ["By: " ++ pyStrip (channel_name.getD "")] else lines
  let lines := if pyTruthy channel_url then
      lines ++ ["Channel: " ++ pyStrip (channel_url.getD "")] else lines
  let lines := lines ++ [""]
  let lines := if pyTruthy mp4 then lines ++ [pyStrip (mp4.getD "")] else lines
  let lines := if pyTruthy hls && hls ≠ mp4 then
      lines ++ [pyStrip (hls.getD "")] else lines
  let lines := if !watch.isEmpty then lines ++ [watch] else lines
  let lines := if !summary.isEmpty then lines ++ ["", summary] else lines
  pyStrip (String.intercalate "\n" lines)

/-- `NostrPublisher._build_tags`, accumulated exactly as the code does. -/
def buildTags (p : VideoRow) : List (List String) :=
  let title := pyStrip (pyOrEmpty p.title)
  let author := pyStrip (pyOrStr (pyOr p.channel_name p.account_name) "unknown")
  let mp4 := p.direct_url
  let hls := p.hls_url
  let tags : List (List String) := [["t", "video"], ["t", "peertube"]]
  let tags :=
    if pyTruthy mp4 then tags ++ [["url", mp4.getD ""], ["m", "video/mp4"]]
    else if pyTruthy hls then
      tags ++ [["url", hls.getD ""], ["m", "application/x-mpegURL"]]
    else tags
  let tags := if !p.watch_url.isEmpty then tags ++ [["r", p.watch_url]] else tags
  let tags := if pyTruthy p.channel_url then
      tags ++ [["r", p.channel_url.getD ""]] else tags
  let tags := if !title.isEmpty then
      tags ++ [["alt", "PeerTube video: " ++ title ++ " by " ++ author]] else tags
  let tags := if pyTruthy p.peertube_instance then
      tags ++ [["peertube:instance", p.peertube_instance.getD ""]] else tags
  tags

/-- The body shape the spec prescribes, written as one concatenation of
blocks in the stated fixed order: title line, optional By line, optional
Channel line, blank line, direct-media URL if present, HLS URL if
present and different, watch URL, then a blank line and the summary if
present. -/
def specBodyLines (p : VideoRow) : List String :=
  let title := pyStrip (pyOrEmpty p.title)
  let summary := pyStrip (pyOrEmpty p.summary)
  let watch := pyStrip p.watch_url
  let channel_name := pyOr p.channel_name p.account_name
  let channel_url := pyOr p.channel_url p.account_url
  (if !title.isEmpty then [title] else [])
    ++ (if pyTruthy channel_name then ["By: " ++ pyStrip (channel_name.getD "")] else [])
    ++ (if pyTruthy channel_url then ["Channel: " ++ pyStrip (channel_url.getD "")] else [])
    ++ [""]
    ++ (if pyTruthy p.direct_url then [pyStrip (p.direct_url.getD "")] else [])
    ++ (if pyTruthy p.hls_url && p.hls_url ≠ p.direct_url then [pyStrip (p.hls_url.getD "")] else [])
    ++ (if !watch.isEmpty then [watch] else [])
    ++ (if !summary.isEmpty then ["", summary] else [])

/-- The spec-shaped body: the blocks joined by newlines (outer whitespace
trimmed, as the produced message is). -/
def specContent (p : VideoRow) : String :=
  pyStrip (String.intercalate "\n" (specBodyLines p))

/-- The tag set the spec prescribes, as one concatenation of blocks:
the two `t` tags, then the `url`/`m` pair for the direct URL with
`video/mp4` when a direct URL exists and only otherwise the HLS pair
with `application/x-mpegURL`, then the `r`, `alt` and instance tags. -/
def specTags (p : VideoRow) : List (List String) :=
  let title := pyStrip (pyOrEmpty p.title)
  let author := pyStrip (pyOrStr (pyOr p.channel_name p.account_name) "unknown")
  [["t", "video"], ["t", "peertube"]]
    ++ (if pyTruthy p.direct_url then
          [["url", p.direct_url.getD ""], ["m", "video/mp4"]]
        else if pyTruthy p.hls_url then
          [["url", p.hls_url.getD ""], ["m", "application/x-mpegURL"]]
        else [])
    ++ (if !p.watch_url.isEmpty then [["r", p.watch_url]] else [])
    ++ (if pyTruthy p.channel_url then [["r", p.channel_url.getD ""]] else [])
    ++ (if !title.isEmpty then
          [["alt", "PeerTube video: " ++ title ++ " by " ++ author]] else [])
    ++ (if pyTruthy p.peertube_instance then
          [["peertube:instance", p.peertube_instance.getD ""]] else [])

/-! ## Variant selection (`_pick_best_mp4_url`)

Two implementations exist in the repository: the condensed one in
`webapp/backend/core/peertube.py` and the original one in
`peertube_nostr.py` (whose comment documents the policy: highest height
at or below 720, otherwise the smallest above 720, otherwise the
largest available). -/

/-- One entry of a `files` array of the upstream video JSON (the fields
the selectors read; a missing key is `none`). -/
structure MediaFile where
  fileUrl : Option String
  url : Option String
  mimeType : Option String
  height : Option Int
  width : Option Int
  size : Option Int
deriving Repr, DecidableEq

/-- One entry of `streamingPlaylists` (only its `files` matter here). -/
structure StreamingPlaylist where
  files : List MediaFile
deriving Repr, DecidableEq

/-- The parts of the upstream video JSON the selectors read. -/
structure VideoJson where
  files : List MediaFile
  streamingPlaylists : List StreamingPlaylist
deriving Repr, DecidableEq

/-- Python `fu.startswith("http")`. -/
def startsWithHttp (fu : String) : Bool :=
  List.isPrefixOf "http".data fu.data

/-- Strict lexicographic comparison of `(Int, Int)` pairs (Python tuple
comparison). -/
def lex2Lt (a b : Int × Int) : Bool :=
  a.1 < b.1 || (a.1 = b.1 && a.2 < b.2)

/-- Strict lexicographic comparison of `(Nat, Int, Int)` triples. -/
def lex3Lt (a b : Nat × Int × Int) : Bool :=
  a.1 < b.1 || (a.1 = b.1 && lex2Lt a.2 b.2)

/-- The webapp `consider` step: accept a file whose URL starts with
`http` and whose URL contains `.mp4` (case-insensitively) or whose MIME
type contains `mp4`; record `(height or 0, size or 0, url)`. -/
def webappConsider (f : MediaFile) : Option (Int × Int × String) :=
  match pyOr f.fileUrl f.url with
  | none => none
  | some fu =>
    if startsWithHttp fu
        && (strContains (pyLower fu.data) ".mp4".data
            || strContains (pyLower (pyOrEmpty f.mimeType).data) "mp4".data) then
      some (f.height.getD 0, f.size.getD 0, fu)
    else none

/-- The webapp sort key `(height <= 720, height, size)`; the list is
sorted on it in reverse, so the chosen candidate maximises this
triple (with the earliest candidate winning ties, by sort stability). -/
def webappKey (c : Int × Int × String) : Nat × Int × Int :=
  ((if c.1 ≤ 720 then 1 else 0), c.1, c.2.1)

/-- First maximum of a candidate list under a strict comparison on keys
(what `list.sort(key=k, reverse=True); list[0]` yields, by stability). -/
def firstMaxBy (key : α → Nat × Int × Int) (l : List α) : Option α :=
  l.foldl (fun best c =>
    match best with
    | none => some c
    | some b => if lex3Lt (key b) (key c) then some c else some b) none

/-- First minimum of a candidate list under a strict comparison on keys
(what `sorted(list, key=k)[0]` yields, by stability). -/
def firstMinBy (key : α → Nat × Int × Int) (l : List α) : Option α :=
  l.foldl (fun best c =>
    match best with
    | none => some c
    | some b => if lex3Lt (key c) (key b) then some c else some b) none

/-- All candidate files in consideration order: the top-level `files`,
then the files of each streaming playlist. -/
def allFiles (v : VideoJson) : List MediaFile :=
  v.files ++ (v.streamingPlaylists.map (fun pl => pl.files)).flatten

/-- `PeerTubeClient._pick_best_mp4_url` of `webapp/backend/core/
peertube.py`: collect candidates, sort by `(height <= 720, height,
size)` descending, take the first. -/
def pickBestMp4Webapp (v : VideoJson) : Option String :=
  let candidates := (allFiles v).filterMap webappConsider
  match firstMaxBy webappKey candidates with
  | none => none
  | some c => some c.2.2

/-- The CLI `consider_file` step (`peertube_nostr.py`): accept a file
whose URL starts with `http` and whose MIME type contains `mp4` or whose
URL ends with `.mp4` (case-insensitively); record
`(height, (height*width, size), url)`. -/
def cliConsider (f : MediaFile) : Option (Int × (Int × Int) × String) :=
  match pyOr f.fileUrl f.url with
  | none => none
  | some fu =>
    if startsWithHttp fu then
      if strContains (pyLower (pyOrEmpty f.mimeType).data) "mp4".data
          || List.isSuffixOf ".mp4".data (pyLower fu.data) then
        let size := f.size.getD 0
        let height := f.height.getD 0
        let width := f.width.getD 0
        some (height, (height * width, size), fu)
      else none
    else none

/-- The CLI `_pick_best_mp4_url` (`peertube_nostr.py`): among candidates
with a known (positive) height, the highest at or below 720, otherwise
the smallest above 720; with no known height, the largest by
`(height*width, size)`. -/
def pickBestMp4Cli (v : VideoJson) : Option String :=
  let candidates := (allFiles v).filterMap cliConsider
  if candidates.isEmpty then none
  else
    let by_height := candidates.map (fun c => (c.1, c.2.1.2, c.2.2))
    let with_height := by_height.filter (fun c => 0 < c.1)
    if !with_height.isEmpty then
      let under := with_height.filter (fun c => c.1 ≤ 720)
      if !under.isEmpty then
        match firstMaxBy (fun c => (0, c.1, c.2.1)) under with
        | some c => some c.2.2
        | none => none
      else
        match firstMinBy (fun c => (0, c.1, c.2.1)) with_height with
        | some c => some c.2.2
        | none => none
    else
      match firstMaxBy (fun c => (0, c.2.1.1, c.2.1.2))
          (candidates.map (fun c => (c.1, (c.2.1.1, c.2.1.2), c.2.2))) with
      | some c => some c.2.2
      | none => none

/-! ## Ingestion pipeline (`webapp/backend/core/peertube.py`,
`webapp/backend/core/runner.py`)

The network collaborators (`PeerTubeClient.list_channel_videos`,
`parse_rss`, `enrich_video`, spec section 6) are modelled as inputs:
the per-call listing results and an enrichment function.  Timestamp
parsing (`parse_any_timestamp`, `calendar.timegm`) happens inside the
accessor lambdas in the Python code; the model carries the parsed
`Option Int` on each entry. -/

/-- The twelve-tuple returned by `PeerTubeClient.enrich_video`. -/
structure EnrichResult where
  base : Option String
  vid : Option String
  mp4 : Option String
  hls : Option String
  peertube_instance : Option String
  ch_name : Option String
  ch_url : Option String
  acc_name : Option String
  acc_url : Option String
  api_title : Option String
  api_desc : Option String
  thumb : Option String
deriving Repr, DecidableEq

/-- The wholly-absent enrichment (`enrich_video` on an unmatched watch
URL returns a tuple of `None`s). -/
def enrichNone : EnrichResult :=
  ⟨none, none, none, none, none, none, none, none, none, none, none, none⟩

set_option linter.unusedVariables false in
/-- `IngestPipeline.ingest_entries` (webapp): iterate the entries; skip
an entry without a constructible key or watch URL; enrich; build an
`IngestedItem`; `insert_pending` it; count it inserted.  Note that the
`cutoff_ts` parameter is accepted but never read, the `skipped` counter
is never incremented, and neither `video_exists` nor
`update_published_ts_if_null` is consulted — the loop relies only on
the store's `INSERT OR IGNORE`. -/
def ingestEntries (t : Store) (source_id : Nat) (entries : List α)
    (entry_key_fn : α → Option String) (watch_url_fn : α → Option String)
    (title_fn : α → String) (summary_fn : α → String)
    (published_ts_fn : α → Option Int) (cutoff_ts : Option Int)
    (channel_url_fallback : Option String)
    (enrich : String → EnrichResult) (now : Int) : Store × Nat × Nat :=
  entries.foldl (fun state e =>
    let (st, inserted, skipped) := state
    let key := pyOrEmpty (entry_key_fn e)
    let watch := watch_url_fn e
    if key.isEmpty || !(pyTruthy watch) then state
    else
      let pub_ts := published_ts_fn e
      let r := enrich (watch.getD "")
      let item : IngestedItem :=
        { source_id := source_id
          entry_key := key
          watch_url := watch.getD ""
          title := pyOrStr r.api_title (title_fn e)
          summary := pyOrStr r.api_desc (summary_fn e)
          peertube_base := r.base
          peertube_video_id := r.vid
          hls_url := r.hls
          mp4_url := r.mp4
          peertube_instance := r.peertube_instance
          channel_name := r.ch_name
          channel_url := pyOr r.ch_url channel_url_fallback
          account_name := r.acc_name
          account_url := r.acc_url
          published_ts := pub_ts
          thumbnail_url := r.thumb }
      (insertPending st item now, inserted + 1, skipped))
    (t, 0, 0)

/-- An item of the primary API listing, with `publishedAt` already put
through `parse_any_timestamp`. -/
structure ApiVideo where
  uuid : Option String
  idStr : Option String
  url : Option String
  name : String
  description : String
  publishedAt : Option Int
deriving Repr, DecidableEq

/-- An item of the parsed feed, with `published_parsed` already reduced
to a timestamp (`none` when the attribute is missing). -/
structure RssEntry where
  idStr : Option String
  link : Option String
  title : String
  summary : String
  published : Option Int
deriving Repr, DecidableEq

/-- The outcome of one `Runner._ingest_source` call: the new store state
and whether the feed fallback path was consulted. -/
structure IngestOutcome where
  store : Store
  consultedRss : Bool
deriving Repr

/-- The feed-fallback tail of `Runner._ingest_source` (webapp): `err` is
the primary-path failure note carried into it. -/
def ingestSourceRss (t : Store) (s : SourceRow) (err : Option String)
    (cutoff : Option Int) (rssListing : Except String (List RssEntry))
    (enrich : String → EnrichResult) (now : Int) : IngestOutcome :=
  if pyTruthy s.rss_url then
    match rssListing with
    | .ok entries =>
      let (t1, _ins, _skp) := ingestEntries t s.id entries
        (fun e => pyOr e.idStr e.link) (fun e => e.link)
        (fun e => e.title) (fun e => e.summary)
        (fun e => e.published) cutoff none enrich now
      ⟨markSourcePolled t1 s.id err now, true⟩
    | .error e =>
      ⟨markSourcePolled t s.id (some (pyOrEmpty err ++ " RSS failed: " ++ e)) now, true⟩
  else
    ⟨markSourcePolled t s.id (some (pyOrStr err "No RSS fallback and API failed")) now, false⟩

set_option linter.unusedVariables false in
/-- `Runner._ingest_source` (webapp): compute the first-poll cutoff,
try the primary API listing when an API reference is configured (on
success ingest oldest-first, mark the source polled with no error and
return), otherwise fall through to the feed path carrying the failure
note `"API failed; trying RSS"`.  `api_limit` only parameterises the
collaborator call and is unused in the model. -/
def ingestSource (t : Store) (s : SourceRow) (api_limit lookback_days : Int)
    (apiListing : Option (List ApiVideo))
    (rssListing : Except String (List RssEntry))
    (enrich : String → EnrichResult) (now : Int) : IngestOutcome :=
  let cutoff : Option Int :=
    if !(pyTruthyInt s.last_polled_ts) then
      let lb := s.lookback_days.getD lookback_days
      if 0 < lb then some (now - lb * 86400) else none
    else none
  if pyTruthy s.api_base && pyTruthy s.api_channel then
    match apiListing with
    | some vids =>
      let (t1, _ins, _skp) := ingestEntries t s.id vids.reverse
        (fun v => pyOr v.uuid v.idStr) (fun v => v.url)
        (fun v => v.name) (fun v => v.description)
        (fun v => v.publishedAt) cutoff s.api_channel_url enrich now
      ⟨markSourcePolled t1 s.id none now, false⟩
    | none =>
      ingestSourceRss t s (some "API failed; trying RSS") cutoff rssListing enrich now
  else
    ingestSourceRss t s none cutoff rssListing enrich now

/-! ## Concrete states used to instantiate and to refute claims -/

/-- A video row with every nullable column null, used as a base for
concrete states. -/
def baseVideo : VideoRow :=
  { id := 0
    source_id := 0
    entry_key := ""
    watch_url := ""
    watch_url_norm := ""
    peertube_base := none
    peertube_video_id := none
    peertube_instance := none
    channel_name := none
    channel_url := none
    account_name := none
    account_url := none
    title := none
    summary := none
    hls_url := none
    direct_url := none
    published_ts := none
    thumbnail_url := none
    status := "pending"
    nostr_event_id := none
    error := none
    first_seen_ts := 0
    last_attempt_ts := none
    posted_ts := none }

/-- An enabled source row with the given id and everything else null. -/
def plainSource (i : Nat) : SourceRow :=
  { id := i
    enabled := true
    created_ts := 0
    api_base := none
    api_base_norm := none
    api_channel := none
    api_channel_url := none
    api_channel_url_norm := none
    rss_url := none
    rss_url_norm := none
    last_polled_ts := none
    last_error := none
    lookback_days := none }

/-- The pending row of source 2 that ranks 201st in the scan order of
`bigStore`. -/
def bigRow : VideoRow :=
  { baseVideo with
    id := 500, source_id := 2, published_ts := some 10000, first_seen_ts := 10000 }

/-- A store with two enabled sources, one video posted by source 1
inside the trailing day, 200 pending rows of source 1 occupying the
whole 200-row scan window, and one pending row of source 2 ranked
201st. -/
def bigStore : Store :=
  { sources := [plainSource 1, plainSource 2]
    videos :=
      { baseVideo with
        id := 1000, source_id := 1, status := "posted", posted_ts := some 999999 }
      :: ((List.range 200).map (fun i =>
            { baseVideo with
              id := i + 1, source_id := 1,
              published_ts := some ((i : Int) + 1),
              first_seen_ts := (i : Int) + 1 }))
      ++ [bigRow] }

/-- A single pending row for the small instantiating store. -/
def smallRow : VideoRow :=
  { baseVideo with
    id := 7, source_id := 1, published_ts := some 40, first_seen_ts := 41 }

/-- A one-source, one-pending-video store. -/
def smallStore : Store :=
  { sources := [plainSource 1], videos := [smallRow] }

/-- A store with one video posted by source 1 at time 50. -/
def postedStore : Store :=
  { sources := [plainSource 1]
    videos := [{ baseVideo with
                 id := 3, source_id := 1, status := "posted",
                 posted_ts := some 50, last_attempt_ts := some 50,
                 nostr_event_id := some "ev0" }] }

/-- A rate limiter over `postedStore` evaluated at the posting instant
with a positive minimum interval. -/
def postedLimiter : RateLimiter :=
  { store := postedStore
    now_ts := 50
    min_interval := 100
    max_per_hour := 3
    max_per_day_per_source := 1 }

/-- A rate limiter over a store with no posted row. -/
def freshLimiter : RateLimiter :=
  { store := smallStore
    now_ts := 1000
    min_interval := 1200
    max_per_hour := 3
    max_per_day_per_source := 1 }

/-- A source configured with both an API reference and a feed URL. -/
def dualSource : SourceRow :=
  { plainSource 1 with
    api_base := some "https://tube.example"
    api_channel := some "chan"
    api_channel_url := some "https://tube.example/c/chan"
    rss_url := some "https://tube.example/feeds/videos.xml" }

/-- An empty store holding only `dualSource`. -/
def dualStore : Store :=
  { sources := [dualSource], videos := [] }

/-- One feed entry for the fallback-path scenario. -/
def rssEntry1 : RssEntry :=
  { idStr := some "guid-1"
    link := some "https://tube.example/w/abc"
    title := "T1"
    summary := "S1"
    published := some 500 }

/-- A never-polled feed-only source with a 30-day lookback in force. -/
def rssOnlySource : SourceRow :=
  { plainSource 4 with
    rss_url := some "https://tube.example/feeds/videos.xml" }

/-- A store holding only `rssOnlySource` and no videos. -/
def rssOnlyStore : Store :=
  { sources := [rssOnlySource], videos := [] }

/-- A two-row store for instantiating the `mark_posted` frame theorem. -/
def twoRowStore : Store :=
  { sources := [plainSource 1]
    videos :=
      [{ baseVideo with
         id := 5, source_id := 1, entry_key := "a", status := "pending" },
       { baseVideo with
         id := 6, source_id := 1, entry_key := "b", status := "pending" }] }

/-- A concrete ingested item for instantiating the dedup theorem. -/
def sampleItem : IngestedItem :=
  { source_id := 1
    entry_key := "k1"
    watch_url := "https://tube.example/w/abc"
    title := "T"
    summary := "S"
    peertube_base := none
    peertube_video_id := none
    hls_url := none
    mp4_url := some "https://tube.example/f/v.mp4"
    peertube_instance := none
    channel_name := none
    channel_url := none
    account_name := none
    account_url := none
    published_ts := some 500
    thumbnail_url := none }

/-- Candidates at 1080p and 1440p only (both above the 720 ceiling),
for probing the overshoot policy of the two selectors. -/
def overshootVideo : VideoJson :=
  { files :=
      [{ fileUrl := some "http://h/v1080.mp4", url := none,
         mimeType := some "video/mp4", height := some 1080,
         width := some 1920, size := some 100 },
       { fileUrl := some "http://h/v1440.mp4", url := none,
         mimeType := some "video/mp4", height := some 1440,
         width := some 2560, size := some 200 }]
    streamingPlaylists := [] }

/-! ## Spec-side formulations

These definitions follow the wording of the specification (not the
code); the theorems compare the code-derived definitions against
them. -/

/-- Apply a sequence of `insert_pending` calls (each with its wall-clock
time) to a store. -/
def applyInserts (t : Store) (ops : List (IngestedItem × Int)) : Store :=
  ops.foldl (fun acc op => insertPending acc op.1 op.2) t

/-- The deduplication invariant: at most one row per
`(source_id, entry_key)` pair. -/
def UniquePairs (l : List VideoRow) : Prop :=
  l.Pairwise (fun a b => ¬(a.source_id = b.source_id ∧ a.entry_key = b.entry_key))

/-- The interval wait as the spec words it:
`max(0, minInterval - (now - lastPostedAt))`, zero if nothing has ever
posted. -/
def specIntervalWait (rl : RateLimiter) : Int :=
  match lastPostedTs rl.store with
  | none => 0
  | some last => max 0 (rl.min_interval - (rl.now_ts - last))

/-- The hourly wait as the spec words it: if posts in the last 3600
seconds reach `maxPostsPerHour`, wait until the oldest of them ages
out. -/
def specHourlyWait (rl : RateLimiter) : Int :=
  if (countPostedSince rl.store (rl.now_ts - 3600) : Int) ≥ rl.max_per_hour then
    match oldestPostedSince rl.store (rl.now_ts - 3600) with
    | some o => max 0 (3600 - (rl.now_ts - o))
    | none => 0
  else 0

/-- The per-source daily wait as the spec words it: the same formula
over an 86400-second window scoped to the candidate source. -/
def specDailyWait (rl : RateLimiter) (source_id : Option Nat) : Int :=
  match source_id with
  | none => 0
  | some sid =>
    if (countPostedSinceFor rl.store sid (rl.now_ts - 86400) : Int)
        ≥ rl.max_per_day_per_source then
      match oldestPostedSinceFor rl.store sid (rl.now_ts - 86400) with
      | some o => max 0 (86400 - (rl.now_ts - o))
      | none => 0
    else 0

/-- `rssOnlySource` after a successful poll (so no lookback cutoff is in
force any more). -/
def polledRssSource : SourceRow :=
  { rssOnlySource with last_polled_ts := some 1000 }

/-- A store that already knows `(source 4, "guid-1")`, with a null
`published_ts` awaiting backfill. -/
def knownStore : Store :=
  { sources := [polledRssSource]
    videos := [{ baseVideo with
                 id := 1, source_id := 4, entry_key := "guid-1",
                 watch_url := "https://tube.example/w/abc",
                 published_ts := none, first_seen_ts := 100 }] }

/-! ## Helper lemmas -/

theorem ite_append {α} (c : Prop) [Decidable c] (L r : List α) :
    (if c then L ++ r else L) = L ++ (if c then r else []) := by
  split <;> simp

theorem ite_append2 {α} (c : Prop) [Decidable c] (L r1 r2 : List α) :
    (if c then L ++ r1 else L ++ r2) = L ++ (if c then r1 else r2) := by
  split <;> rfl

theorem foldl_max_mem (l : List Int) (h : Int) :
    l.foldl max h = h ∨ l.foldl max h ∈ l := by
  induction l generalizing h with
  | nil => exact Or.inl rfl
  | cons a t ih =>
    rcases ih (max h a) with h1 | h1
    · rcases max_choice h a with h2 | h2
      · exact Or.inl (by simpa [h2] using h1)
      · refine Or.inr ?_
        rw [show List.foldl max h (a :: t) = List.foldl max (max h a) t from rfl,
          h1, h2]
        exact List.mem_cons_self a t
    · exact Or.inr (List.mem_cons_of_mem a h1)

theorem le_foldl_max (l : List Int) (h : Int) :
    h ≤ l.foldl max h ∧ ∀ x ∈ l, x ≤ l.foldl max h := by
  induction l generalizing h with
  | nil => exact ⟨le_refl h, by simp⟩
  | cons a t ih =>
    have hmax := ih (max h a)
    refine ⟨le_trans (le_max_left h a) hmax.1, ?_⟩
    intro x hx
    rcases List.mem_cons.mp hx with rfl | hx
    · exact le_trans (le_max_right h x) hmax.1
    · exact hmax.2 x hx

theorem foldl_min_mem (l : List Int) (h : Int) :
    l.foldl min h = h ∨ l.foldl min h ∈ l := by
  induction l generalizing h with
  | nil => exact Or.inl rfl
  | cons a t ih =>
    rcases ih (min h a) with h1 | h1
    · rcases min_choice h a with h2 | h2
      · exact Or.inl (by simpa [h2] using h1)
      · refine Or.inr ?_
        rw [show List.foldl min h (a :: t) = List.foldl min (min h a) t from rfl,
          h1, h2]
        exact List.mem_cons_self a t
    · exact Or.inr (List.mem_cons_of_mem a h1)

theorem find?_split {α} (p : α → Bool) (l : List α) (a : α)
    (h : l.find? p = some a) :
    p a = true ∧ ∃ l1 l2, l = l1 ++ a :: l2 ∧ ∀ x ∈ l1, p x = false := by
  induction l with
  | nil => simp at h
  | cons b t ih =>
    rw [List.find?] at h
    cases hb : p b with
    | true =>
      rw [hb] at h
      obtain rfl : b = a := by simpa using h
      exact ⟨hb, [], t, rfl, by simp⟩
    | false =>
      rw [hb] at h
      obtain ⟨pa, l1, l2, rfl, hl1⟩ := ih h
      refine ⟨pa, b :: l1, l2, rfl, ?_⟩
      intro x hx
      rcases List.mem_cons.mp hx with rfl | hx
      · exact hb
      · exact hl1 x hx

theorem insertPending_sources (t : Store) (item : IngestedItem) (ts : Int) :
    (insertPending t item ts).sources = t.sources := by
  unfold insertPending
  split <;> rfl

theorem foldl_preserves_sources {α}
    (f : (Store × Nat × Nat) → α → (Store × Nat × Nat))
    (hf : ∀ st e, ((f st e).1).sources = st.1.sources) :
    ∀ (entries : List α) (st : Store × Nat × Nat),
      ((entries.foldl f st).1).sources = st.1.sources := by
  intro entries
  induction entries with
  | nil => intro st; rfl
  | cons e t ih =>
    intro st
    have := ih (f st e)
    rw [List.foldl_cons, this, hf st e]

theorem ingestEntries_sources {α} (t : Store) (source_id : Nat)
    (entries : List α) (kf wf : α → Option String) (tf sf : α → String)
    (pf : α → Option Int) (cutoff : Option Int) (fb : Option String)
    (enrich : String → EnrichResult) (now : Int) :
    ((ingestEntries t source_id entries kf wf tf sf pf cutoff fb enrich now).1).sources
      = t.sources := by
  unfold ingestEntries
  refine foldl_preserves_sources _ ?_ entries (t, 0, 0)
  intro st e
  dsimp only
  split
  · rfl
  · exact insertPending_sources _ _ _

theorem markSourcePolled_lastError (t : Store) (sid : Nat)
    (err : Option String) (ts : Int) :
    ∀ r ∈ (markSourcePolled t sid err ts).sources,
      r.id = sid → r.last_error = err := by
  intro r hr h2
  unfold markSourcePolled at hr
  simp only [List.mem_map] at hr
  obtain ⟨r0, _hr0, hEq⟩ := hr
  by_cases h : r0.id = sid
  · rw [if_pos h] at hEq
    rw [← hEq]
  · rw [if_neg h] at hEq
    rw [← hEq] at h2
    exact absurd h2 h

/-! ## The claims -/

/-- C3: the claim asserts that `canonicalize` is idempotent on every
accepted URL.  The code is not: a path of slashes is right-stripped to
the empty path, so `https://example.com//` canonicalises to
`https://example.com`, which canonicalises again to
`https://example.com/` — a different string.  The case-and-port
normalisation example of the claim does hold. -/
theorem c3_canonicalize_not_idempotent :
    normaliseHttpUrl "https://example.com//" = Except.ok "https://example.com"
    ∧ normaliseHttpUrl "https://example.com" = Except.ok "https://example.com/"
    ∧ ("https://example.com/" : String) ≠ "https://example.com"
    ∧ normaliseHttpUrl "HTTPS://X.COM:443/a/" = Except.ok "https://x.com/a" :=
  ⟨rfl, rfl, by decide, rfl⟩

/-- C5: with candidates only above the 720 ceiling (1080p and 1440p),
the webapp selector returns the largest-height candidate, while the CLI
selector (whose comment documents the intended policy) returns the
smallest overshoot the claim prescribes. -/
theorem c5_overshoot_divergence :
    pickBestMp4Webapp overshootVideo = some "http://h/v1440.mp4"
    ∧ pickBestMp4Cli overshootVideo = some "http://h/v1080.mp4" :=
  ⟨rfl, rfl⟩

/-- C7: on a never-polled feed-only source with a 30-day lookback, an
entry published far before the cutoff is nevertheless ingested (the
webapp `ingest_entries` never reads `cutoff_ts`); and re-polling an
already-known entry whose stored `published_ts` is null leaves the row
unchanged — the now-known publish time is not backfilled
(`update_published_ts_if_null` is never called). -/
theorem c7_cutoff_and_backfill_ignored :
    ((ingestSource rssOnlyStore rssOnlySource 50 30 none
        (Except.ok [rssEntry1]) (fun _ => enrichNone) 2000000000).store.videos.map
      (fun v => (v.entry_key, v.published_ts, v.status)))
      = [("guid-1", some 500, "pending")]
    ∧ (ingestSource knownStore polledRssSource 50 30 none
        (Except.ok [rssEntry1]) (fun _ => enrichNone) 2000000000).store.videos
      = knownStore.videos :=
  ⟨rfl, rfl⟩

/-- C6 counterexample: when the API listing fails and the feed path
succeeds, the recorded `last_error` is the primary-failure marker, not
null as the claim states. -/
theorem c6_counterexample :
    (ingestSource dualStore dualSource 50 30 none
        (Except.ok [rssEntry1]) (fun _ => enrichNone) 2000).store.sources.map
      (fun s => (s.id, s.last_error))
      = [(1, some "API failed; trying RSS")] :=
  rfl

/-- C6 (amended): for a source with an API reference, a successful
primary listing — even an empty one — marks the source polled with a
null error and returns without consulting the feed fallback; when the
primary listing fails and the feed path succeeds, the final
`last_error` is the marker `"API failed; trying RSS"` (not null). -/
theorem c6_primary_and_fallback (t : Store) (s : SourceRow)
    (api_limit lookback_days : Int)
    (rssListing : Except String (List RssEntry))
    (enrich : String → EnrichResult) (now : Int)
    (hapi : (pyTruthy s.api_base && pyTruthy s.api_channel) = true) :
    (∀ vids : List ApiVideo,
      (ingestSource t s api_limit lookback_days (some vids) rssListing enrich now).consultedRss
        = false
      ∧ ∀ r ∈ (ingestSource t s api_limit lookback_days (some vids) rssListing enrich now).store.sources,
          r.id = s.id → r.last_error = none)
    ∧ (pyTruthy s.rss_url = true →
        ∀ entries, rssListing = Except.ok entries →
        ∀ r ∈ (ingestSource t s api_limit lookback_days none rssListing enrich now).store.sources,
          r.id = s.id → r.last_error = some "API failed; trying RSS") := by
  constructor
  · intro vids
    constructor
    · simp only [ingestSource, hapi, if_true]
    · simp only [ingestSource, hapi, if_true]
      exact markSourcePolled_lastError _ _ _ _
  · intro hrss entries hok
    subst hok
    simp only [ingestSource, hapi, if_true, ingestSourceRss, hrss]
    exact markSourcePolled_lastError _ _ _ _

/-- C6 witness: instantiated on `dualSource` with an empty successful
API listing. -/
theorem c6_primary_and_fallback_witness :
    (ingestSource dualStore dualSource 50 30 (some [])
        (Except.ok []) (fun _ => enrichNone) 2000).consultedRss = false
    ∧ ((ingestSource dualStore dualSource 50 30 (some [])
        (Except.ok []) (fun _ => enrichNone) 2000).store.sources.getD 0
          (plainSource 0)).last_error = none := by
  have h := c6_primary_and_fallback dualStore dualSource 50 30
    (Except.ok []) (fun _ => enrichNone) 2000 (by decide)
  refine ⟨(h.1 []).1, ?_⟩
  exact (h.1 []).2 _ (by decide) (by decide)

/-- C2: inserting a pending video is keyed on `(source_id, entry_key)`:
any sequence of `insert_pending` calls preserves the at-most-one-row-per
pair invariant, and a second insert for an already-present pair is a
strict no-op on the whole store. -/
theorem c2_insert_pending_dedup :
    (∀ (t : Store) (ops : List (IngestedItem × Int)),
      UniquePairs t.videos → UniquePairs (applyInserts t ops).videos)
    ∧ (∀ (t : Store) (item : IngestedItem) (ts ts2 : Int),
        insertPending (insertPending t item ts) item ts2
          = insertPending t item ts) := by
  have hstep : ∀ (t : Store) (item : IngestedItem) (ts : Int),
      UniquePairs t.videos → UniquePairs (insertPending t item ts).videos := by
    intro t item ts h
    by_cases hex : videoExists t item.source_id item.entry_key = true
    · simpa [insertPending, hex] using h
    · rw [insertPending, if_neg hex]
      unfold UniquePairs at h ⊢
      rw [List.pairwise_append]
      refine ⟨h, List.pairwise_singleton _ _, ?_⟩
      intro a ha b hb
      simp only [List.mem_singleton] at hb
      subst hb
      rintro ⟨h1, h2⟩
      apply hex
      simp only [videoExists, List.any_eq_true]
      refine ⟨a, ha, ?_⟩
      simp only [rowOfItem] at h1 h2
      simp [h1, h2]
  constructor
  · intro t ops
    induction ops generalizing t with
    | nil => exact fun h => h
    | cons op rest ih =>
      intro h
      have h1 := hstep t op.1 op.2 h
      simpa only [applyInserts, List.foldl_cons] using
        ih (insertPending t op.1 op.2) h1
  · intro t item ts ts2
    by_cases hex : videoExists t item.source_id item.entry_key = true
    · simp [insertPending, hex]
    · have h2 : videoExists { t with videos := t.videos ++ [rowOfItem t item ts] }
          item.source_id item.entry_key = true := by
        simp [videoExists, List.any_append, rowOfItem]
      simp [insertPending, hex, h2]

/-- C2 witness: two inserts of the same item starting from an empty
videos table keep the unique-pair invariant. -/
theorem c2_insert_pending_dedup_witness :
    UniquePairs (applyInserts dualStore
      [(sampleItem, 100), (sampleItem, 200)]).videos :=
  c2_insert_pending_dedup.1 dualStore [(sampleItem, 100), (sampleItem, 200)]
    (by simp [UniquePairs, dualStore])

/-- C10: `mark_posted` rewrites exactly the row with the given id —
status `posted`, the event id, `posted_ts` and `last_attempt_ts` both
set to the same timestamp, `error` cleared — and leaves every other
column of that row, every other row, and the sources table unchanged. -/
theorem c10_mark_posted_frame (t : Store) (vid : Nat) (eid : String)
    (ts : Int) (i : Nat) (hi : i < t.videos.length) :
    (markPosted t vid eid ts).sources = t.sources
    ∧ (markPosted t vid eid ts).videos.length = t.videos.length
    ∧ (t.videos[i].id ≠ vid →
        (markPosted t vid eid ts).videos[i]? = some t.videos[i])
    ∧ (t.videos[i].id = vid →
        (markPosted t vid eid ts).videos[i]? = some
          { t.videos[i] with
            status := "posted", nostr_event_id := some eid,
            posted_ts := some ts, last_attempt_ts := some ts,
            error := none }) := by
  refine ⟨rfl, by simp [markPosted], ?_, ?_⟩
  · intro hne
    unfold markPosted
    simp only [List.getElem?_map, List.getElem?_eq_getElem hi,
      Option.map_some']
    rw [if_neg hne]
  · intro heq
    unfold markPosted
    simp only [List.getElem?_map, List.getElem?_eq_getElem hi,
      Option.map_some']
    rw [if_pos heq]

/-- C10 witness: marking row 5 of the two-row store posted. -/
theorem c10_mark_posted_frame_witness :
    (markPosted twoRowStore 5 "ev1" 77).videos[0]? = some
      { baseVideo with
        id := 5, source_id := 1, entry_key := "a", status := "posted",
        nostr_event_id := some "ev1", posted_ts := some 77,
        last_attempt_ts := some 77 } := by
  have h := (c10_mark_posted_frame twoRowStore 5 "ev1" 77 0
    (by decide)).2.2.2 (by decide)
  rw [h]
  decide

/-- C8: the message body equals the spec-shaped body (title line,
optional By line, optional Channel line, blank line, direct URL if
present, HLS URL if present and different, watch URL, blank line and
summary if present, in that fixed order), and the tag set equals the
spec-shaped tag list, whose `url`/`m` pair carries the direct URL with
`video/mp4` when a direct URL exists and only otherwise the HLS URL
with `application/x-mpegURL`. -/
theorem c8_message_shape (p : VideoRow) :
    buildContent p = specContent p ∧ buildTags p = specTags p := by
  constructor
  · unfold buildContent specContent specBodyLines
    simp only [ite_append, ite_append2, List.append_assoc, List.nil_append]
  · unfold buildTags specTags
    simp only [ite_append, ite_append2, List.append_assoc, List.nil_append]

theorem lastPostedTs_mem (t : Store) (l : Int)
    (h : lastPostedTs t = some l) :
    ∃ v ∈ t.videos, v.status = "posted" ∧ v.posted_ts = some l := by
  unfold lastPostedTs at h
  rcases hvals : t.videos.filterMap
      (fun v => if v.status = "posted" then v.posted_ts else none) with _ | ⟨h0, rest⟩
  · rw [hvals] at h; cases h
  · rw [hvals] at h
    have hl : rest.foldl max h0 = l := by simpa using h
    have hmem : l ∈ h0 :: rest := by
      rcases foldl_max_mem rest h0 with h1 | h1
      · rw [← hl, h1]; exact List.mem_cons_self h0 rest
      · exact hl ▸ List.mem_cons_of_mem h0 h1
    have : l ∈ t.videos.filterMap
        (fun v => if v.status = "posted" then v.posted_ts else none) := by
      rw [hvals]; exact hmem
    obtain ⟨v, hv, hfv⟩ := List.mem_filterMap.mp this
    by_cases hst : v.status = "posted"
    · rw [if_pos hst] at hfv
      exact ⟨v, hv, hst, hfv⟩
    · rw [if_neg hst] at hfv
      cases hfv

theorem lastPostedTs_ge (t : Store) (v : VideoRow) (p : Int)
    (hv : v ∈ t.videos) (hst : v.status = "posted")
    (hp : v.posted_ts = some p) :
    ∃ l, lastPostedTs t = some l ∧ p ≤ l := by
  have hmem : p ∈ t.videos.filterMap
      (fun v => if v.status = "posted" then v.posted_ts else none) :=
    List.mem_filterMap.mpr ⟨v, hv, by rw [if_pos hst]; exact hp⟩
  rcases hvals : t.videos.filterMap
      (fun v => if v.status = "posted" then v.posted_ts else none) with _ | ⟨h0, rest⟩
  · rw [hvals] at hmem; cases hmem
  · rw [hvals] at hmem
    refine ⟨rest.foldl max h0, by unfold lastPostedTs; rw [hvals], ?_⟩
    rcases List.mem_cons.mp hmem with rfl | hm
    · exact (le_foldl_max rest p).1
    · exact (le_foldl_max rest h0).2 p hm

theorem oldestPostedSince_mem (t : Store) (since l : Int)
    (h : oldestPostedSince t since = some l) :
    ∃ v ∈ t.videos, v.posted_ts = some l := by
  unfold oldestPostedSince at h
  rcases hvals : t.videos.filterMap
      (fun v => if postedInWindow v since then v.posted_ts else none) with _ | ⟨h0, rest⟩
  · rw [hvals] at h; cases h
  · rw [hvals] at h
    have hl : rest.foldl min h0 = l := by simpa using h
    have hmem : l ∈ h0 :: rest := by
      rcases foldl_min_mem rest h0 with h1 | h1
      · rw [← hl, h1]; exact List.mem_cons_self h0 rest
      · exact hl ▸ List.mem_cons_of_mem h0 h1
    have : l ∈ t.videos.filterMap
        (fun v => if postedInWindow v since then v.posted_ts else none) := by
      rw [hvals]; exact hmem
    obtain ⟨v, hv, hfv⟩ := List.mem_filterMap.mp this
    by_cases hw : postedInWindow v since = true
    · rw [if_pos hw] at hfv
      exact ⟨v, hv, hfv⟩
    · rw [if_neg hw] at hfv
      cases hfv

theorem oldestPostedSinceFor_mem (t : Store) (sid : Nat) (since l : Int)
    (h : oldestPostedSinceFor t sid since = some l) :
    ∃ v ∈ t.videos, v.posted_ts = some l := by
  unfold oldestPostedSinceFor at h
  rcases hvals : t.videos.filterMap
      (fun v => if v.source_id = sid && postedInWindow v since
                then v.posted_ts else none) with _ | ⟨h0, rest⟩
  · rw [hvals] at h; cases h
  · rw [hvals] at h
    have hl : rest.foldl min h0 = l := by simpa using h
    have hmem : l ∈ h0 :: rest := by
      rcases foldl_min_mem rest h0 with h1 | h1
      · rw [← hl, h1]; exact List.mem_cons_self h0 rest
      · exact hl ▸ List.mem_cons_of_mem h0 h1
    have : l ∈ t.videos.filterMap
        (fun v => if v.source_id = sid && postedInWindow v since
                  then v.posted_ts else none) := by
      rw [hvals]; exact hmem
    obtain ⟨v, hv, hfv⟩ := List.mem_filterMap.mp this
    by_cases hw : (v.source_id = sid && postedInWindow v since) = true
    · rw [if_pos hw] at hfv
      exact ⟨v, hv, hfv⟩
    · rw [if_neg hw] at hfv
      cases hfv

/-- C4: provided no stored `posted_ts` is the (falsy) literal 0 and the
per-source daily cap is positive, `next_wait` equals the maximum of the
three spec-side waits (interval, hourly, per-source daily); it is 0 when
no video has ever been posted; and it is positive immediately after a
post whenever `min_interval` is positive. -/
theorem c4_rate_limiter (rl : RateLimiter) (sid : Option Nat)
    (hzero : ∀ v ∈ rl.store.videos, v.posted_ts ≠ some 0)
    (hcap : 0 < rl.max_per_day_per_source) :
    rl.next_wait sid
      = max (specIntervalWait rl) (max (specHourlyWait rl) (specDailyWait rl sid))
    ∧ ((∀ v ∈ rl.store.videos, v.status ≠ "posted") → rl.next_wait sid = 0)
    ∧ (∀ v ∈ rl.store.videos, v.status = "posted" →
        v.posted_ts = some rl.now_ts → 0 < rl.min_interval →
        0 < rl.next_wait sid) := by
  have hInterval : rl.wait_interval = specIntervalWait rl := by
    unfold RateLimiter.wait_interval specIntervalWait
    rcases hl : lastPostedTs rl.store with _ | l
    · simp
    · obtain ⟨v, hv, _hst, hp⟩ := lastPostedTs_mem rl.store l hl
      have hne : l ≠ 0 := by
        intro h0; subst h0; exact hzero v hv hp
      simp [hne]
  have hHourly : rl.wait_hourly = specHourlyWait rl := by
    unfold RateLimiter.wait_hourly specHourlyWait
    by_cases hc : (countPostedSince rl.store (rl.now_ts - 3600) : Int)
        ≥ rl.max_per_hour
    · rw [if_pos hc, if_pos hc]
      rcases ho : oldestPostedSince rl.store (rl.now_ts - 3600) with _ | o
      · rfl
      · obtain ⟨v, hv, hp⟩ := oldestPostedSince_mem rl.store _ o ho
        have hne : o ≠ 0 := by
          intro h0; subst h0; exact hzero v hv hp
        simp [hne]
    · rw [if_neg hc, if_neg hc]
  have hDaily : rl.wait_daily_for_source sid = specDailyWait rl sid := by
    unfold RateLimiter.wait_daily_for_source specDailyWait
    cases sid with
    | none => rfl
    | some s =>
      dsimp only
      rw [if_neg (not_le.mpr hcap)]
      by_cases hc : (countPostedSinceFor rl.store s (rl.now_ts - 86400) : Int)
          ≥ rl.max_per_day_per_source
      · rw [if_pos hc, if_pos hc]
        rcases ho : oldestPostedSinceFor rl.store s (rl.now_ts - 86400) with _ | o
        · rfl
        · obtain ⟨v, hv, hp⟩ := oldestPostedSinceFor_mem rl.store s _ o ho
          have hne : o ≠ 0 := by
            intro h0; subst h0; exact hzero v hv hp
          simp [hne]
      · rw [if_neg hc, if_neg hc]
  refine ⟨?_, ?_, ?_⟩
  · unfold RateLimiter.next_wait
    rw [hInterval, hHourly, hDaily]
  · intro hn
    have hfm : rl.store.videos.filterMap
        (fun v => if v.status = "posted" then v.posted_ts else none) = [] := by
      rw [List.filterMap_eq_nil_iff]
      intro a ha; rw [if_neg (hn a ha)]
    have hlast : lastPostedTs rl.store = none := by
      unfold lastPostedTs; rw [hfm]
    have hwin : ∀ (a : VideoRow), a ∈ rl.store.videos →
        ∀ since : Int, postedInWindow a since = false := by
      intro a ha since
      simp [postedInWindow, hn a ha]
    have holdest : ∀ since, oldestPostedSince rl.store since = none := by
      intro since
      unfold oldestPostedSince
      rw [List.filterMap_eq_nil_iff.mpr (fun a ha => by rw [hwin a ha since]; rfl)]
    have holdF : ∀ s since, oldestPostedSinceFor rl.store s since = none := by
      intro s since
      unfold oldestPostedSinceFor
      rw [List.filterMap_eq_nil_iff.mpr
        (fun a ha => by rw [hwin a ha since]; simp)]
    unfold RateLimiter.next_wait RateLimiter.wait_interval
      RateLimiter.wait_hourly RateLimiter.wait_daily_for_source
    rw [hlast]
    cases sid with
    | none =>
      simp [holdest]
    | some s =>
      simp [holdest, holdF]
  · intro v hv hst hp hmin
    obtain ⟨l, hl, hge⟩ := lastPostedTs_ge rl.store v rl.now_ts hv hst hp
    obtain ⟨v2, hv2, _hst2, hp2⟩ := lastPostedTs_mem rl.store l hl
    have hlne : l ≠ 0 := by
      intro h0; subst h0; exact hzero v2 hv2 hp2
    have hwi : 0 < rl.wait_interval := by
      unfold RateLimiter.wait_interval
      rw [hl]
      simp only [Option.getD_some]
      rw [if_pos hlne]
      have h1 : 0 < rl.min_interval - (rl.now_ts - l) := by omega
      exact lt_of_lt_of_le h1 (le_max_right 0 _)
    have : rl.wait_interval ≤ rl.next_wait sid := by
      unfold RateLimiter.next_wait
      exact le_max_left _ _
    omega

/-- C4 witness: at the posting instant with `min_interval = 100`, the
wait is positive; and with nothing posted it is 0. -/
theorem c4_rate_limiter_witness :
    0 < postedLimiter.next_wait (some 1)
    ∧ freshLimiter.next_wait (some 1) = 0 := by
  constructor
  · exact (c4_rate_limiter postedLimiter (some 1) (by decide) (by decide)).2.2
      { baseVideo with
        id := 3, source_id := 1, status := "posted",
        posted_ts := some 50, last_attempt_ts := some 50,
        nostr_event_id := some "ev0" }
      (by decide) (by decide) (by decide) (by decide)
  · exact (c4_rate_limiter freshLimiter (some 1) (by decide) (by decide)).2.1
      (by decide)

/-- C1 (amended): whatever `next_pending_eligible` returns is a pending
video of an enabled source whose source is strictly under the per-day
cap over the trailing 86400 seconds, and it is the first under-cap
candidate of the scanned prefix — the first 200 pending rows in the
order (`published_ts IS NULL` asc, `published_ts` asc, `first_seen_ts`
asc); conversely an under-cap candidate inside that prefix guarantees a
result.  (The unamended claim quantifies over all pending rows; the
`LIMIT 200` makes that false — see the counterexample.) -/
theorem c1_next_pending_eligible (t : Store) (now_ts cap : Int) :
    (∀ v, nextPendingEligible t now_ts cap = some v →
      ((countPostedSinceFor t v.source_id (now_ts - 86400) : Int) < cap)
      ∧ v.status = "pending"
      ∧ sourceEnabled t v.source_id = true
      ∧ v ∈ t.videos
      ∧ ∃ l1 l2, (pendingSorted t).take 200 = l1 ++ v :: l2
          ∧ ∀ w ∈ l1,
              ¬((countPostedSinceFor t w.source_id (now_ts - 86400) : Int) < cap))
    ∧ List.Sorted pendingOrder (pendingSorted t)
    ∧ (∀ v ∈ (pendingSorted t).take 200,
        ((countPostedSinceFor t v.source_id (now_ts - 86400) : Int) < cap) →
        (nextPendingEligible t now_ts cap).isSome = true) := by
  refine ⟨?_, ?_, ?_⟩
  · intro v h
    unfold nextPendingEligible at h
    obtain ⟨hpred, l1, l2, hsplit, hfail⟩ := find?_split _ _ _ h
    have hcap := of_decide_eq_true hpred
    have hmem : v ∈ (pendingSorted t).take 200 := by
      rw [hsplit]
      exact List.mem_append_right l1 (List.mem_cons_self v l2)
    have hmem2 : v ∈ pendingJoin t :=
      (List.mem_insertionSort pendingOrder).mp (List.take_subset 200 _ hmem)
    have hmem3 := List.mem_filter.mp hmem2
    have hflags := hmem3.2
    simp only [Bool.and_eq_true, decide_eq_true_eq] at hflags
    refine ⟨hcap, hflags.1, hflags.2, hmem3.1, l1, l2, hsplit, ?_⟩
    intro w hw
    have := hfail w hw
    simpa using this
  · exact List.sorted_insertionSort pendingOrder (pendingJoin t)
  · intro v hv hcap
    unfold nextPendingEligible
    rw [List.find?_isSome]
    exact ⟨v, hv, decide_eq_true hcap⟩

/-- C1 witness: the single pending row of `smallStore` is returned and
satisfies all parts of the theorem. -/
theorem c1_next_pending_eligible_witness :
    smallRow.status = "pending"
    ∧ smallRow ∈ smallStore.videos
    ∧ ((countPostedSinceFor smallStore smallRow.source_id
        (100 - 86400) : Int) < 1) := by
  have h := (c1_next_pending_eligible smallStore 100 1).1 smallRow (by decide)
  exact ⟨h.2.1, h.2.2.2.1, h.1⟩

set_option maxRecDepth 1000000 in
/-- C1 counterexample: in `bigStore` the first 200 rows of the scan
order all belong to the capped source 1, so `next_pending_eligible`
returns nothing although the pending row `bigRow` of the enabled,
under-cap source 2 exists — contradicting the unamended claim that the
first eligible video among all pending rows is returned. -/
theorem c1_counterexample :
    (nextPendingEligible bigStore 1000000 1).isNone = true
    ∧ bigRow ∈ bigStore.videos
    ∧ bigRow.status = "pending"
    ∧ sourceEnabled bigStore bigRow.source_id = true
    ∧ ((countPostedSinceFor bigStore bigRow.source_id
        (1000000 - 86400) : Int) < 1) :=
  ⟨by decide, by decide, rfl, by decide, by decide⟩

set_option maxRecDepth 1000000 in
/-- C9: the scan of `next_pending_eligible` considers only the first
200 pending rows in sort order: in `bigStore` there are 201 pending
candidates, every scanned one belongs to source 1 (which has already
posted once in the trailing day, meeting the cap of 1), and the
eligible 201st candidate of source 2 is never returned — the call
yields `None`. -/
theorem c9_limit200_starvation :
    (pendingSorted bigStore).length = 201
    ∧ ((pendingSorted bigStore).take 200).all
        (fun v => v.source_id = 1) = true
    ∧ countPostedSinceFor bigStore 1 (1000000 - 86400) = 1
    ∧ bigRow ∈ pendingSorted bigStore
    ∧ bigRow.source_id = 2
    ∧ countPostedSinceFor bigStore 2 (1000000 - 86400) = 0
    ∧ nextPendingEligible bigStore 1000000 1 = none :=
  ⟨by decide, by decide, by decide, by decide, rfl, by decide, by decide⟩
